import Mathlib

/-!
Verification of the Colobot scalar value model (CBot long-integer variable)
and the vertex conversion structs, against their specification.

Machine integers are embedded as `Int` together with explicit reinterpretation
maps between width-`w` two's-complement signed values and their unsigned bit
patterns (`Nat` below `2 ^ w`).
-/

namespace CBot

/-- The unsigned bit pattern (as a natural number below `2 ^ w`) of the
width-`w` two's-complement representation of `x`. -/
def toUnsigned (w : Nat) (x : Int) : Nat :=
  (x % ((2 : Int) ^ w)).toNat

/-- Reinterpret an unsigned width-`w` bit pattern as a signed width-`w`
two's-complement value. -/
def toSigned (w : Nat) (u : Nat) : Int :=
  if u % 2 ^ w < 2 ^ (w - 1) then ((u % 2 ^ w : Nat) : Int)
  else ((u % 2 ^ w : Nat) : Int) - (2 : Int) ^ w

/-- Fixed-width little-endian byte encoding: `natToBytes w n` is the `w`-byte
field holding the bit pattern `n` (each byte below 256). -/
def natToBytes : Nat → Nat → List Nat
  | 0, _ => []
  | w + 1, n => n % 256 :: natToBytes w (n / 256)

/-- Decoding of a little-endian byte field back to its bit pattern. -/
def bytesToNat : List Nat → Nat
  | [] => 0
  | b :: bs => b + 256 * bytesToNat bs

/-- Modelled from the spec: the closed enumeration of scalar kinds whose wire
format §6 fixes (the string kind's wire format is not specified and is
excluded). The concrete `CBotType` enumeration is not under `src/`. -/
inductive TypeTag
  | tBool
  | tInt
  | tLong
  | tFloat
  | tDouble
deriving DecidableEq

/-- Modelled from the spec: the exact payload widths of §6 — 1 byte (boolean),
4 bytes (32-bit integer, 32-bit float), 8 bytes (long-integer, double). -/
def payloadWidth : TypeTag → Nat
  | .tBool => 1
  | .tInt => 4
  | .tLong => 8
  | .tFloat => 4
  | .tDouble => 8

/-- Modelled from the spec: the discriminant value of each kind. The spec fixes
that the discriminant is a fixed-width tag distinguishing the kinds but not its
numeric values; distinct codes are chosen. -/
def tagByte : TypeTag → Nat
  | .tBool => 0
  | .tInt => 1
  | .tLong => 2
  | .tFloat => 3
  | .tDouble => 4

/-- Modelled from the spec: discriminant decoding used by Restore; a byte that
matches no known kind decodes to `none`. -/
def byteToTag (b : Nat) : Option TypeTag :=
  if b = 0 then some .tBool
  else if b = 1 then some .tInt
  else if b = 2 then some .tLong
  else if b = 3 then some .tFloat
  else if b = 4 then some .tDouble
  else none

/-- A persisted scalar value: its kind and the raw bit pattern of its payload
(bit-for-bit, so float NaN or Infinity payloads are just their patterns). -/
structure SavedVal where
  tag : TypeTag
  bits : Nat
deriving DecidableEq

/-- Modelled from the spec: Save writes the TypeTag discriminant first, then
the payload as the kind's fixed-width field (`CBotVarLong::Save1State` under
`src/` writes the 8-byte long payload; the discriminant framing around it is
spec-modelled). -/
def saveState (v : SavedVal) : List Nat :=
  tagByte v.tag :: natToBytes (payloadWidth v.tag) v.bits

inductive SerError
  | CorruptState
deriving DecidableEq

/-- Modelled from the spec: Restore reads the discriminant, dispatches on it
(an unrecognized discriminant is a `CorruptState` failure and no value is
constructed), then reads the kind's fixed-width payload; a truncated payload
is also `CorruptState`. -/
def restoreState (bytes : List Nat) : Except SerError SavedVal :=
  match bytes with
  | [] => .error .CorruptState
  | b :: rest =>
    match byteToTag b with
    | none => .error .CorruptState
    | some tag =>
      if payloadWidth tag ≤ rest.length then
        .ok ⟨tag, bytesToNat (rest.take (payloadWidth tag))⟩
      else .error .CorruptState

/-- Embedding of `CBotVarLong::Save1State` from `src/CBot/CBotVar/CBotVarLong.h`:
`WriteLong(ostr, m_val)` — the stored long value written as its fixed 8-byte
field (`WriteLong` itself is not under `src/`; its 8-byte width is from §6). -/
def CBotVarLong_Save1State (v : Int) : List Nat :=
  natToBytes 8 (toUnsigned 64 v)

/-- The full byte sequence emitted for one persisted long-integer scalar:
discriminant first, then the `Save1State` payload. -/
def saveLongVar (v : Int) : List Nat :=
  tagByte .tLong :: CBotVarLong_Save1State v

namespace CBotVarLong

/-- Embedding of `CBotVarLong::SR` from `src/CBot/CBotVar/CBotVarLong.h`:
`SetValLong(static_cast<unsigned long>(left->GetValLong()) >> right->GetValInt())`.
The left operand's 64-bit value is reinterpreted as unsigned, shifted right
(zero fill) by the right operand's value-as-int, and the 64-bit result pattern
is stored back as signed. -/
def SR_val (x n : Int) : Int :=
  toSigned 64 (toUnsigned 64 x >>> n.toNat)

/-- Modelled from the spec: `GetValInt` on the long kind truncates the stored
value to its low 32 bits under two's-complement reinterpretation
(`long-to-int truncates`, §4.2 / §8 cross-width coercion); the implementing
accessor is not under `src/`. -/
def GetValInt (v : Int) : Int :=
  toSigned 32 (toUnsigned 32 v)

end CBotVarLong

/-- A 32-bit saturating conversion; what `GetValInt` on the long kind would be
if it saturated instead of truncating (it does not — see `C8`). -/
def saturate32 (v : Int) : Int :=
  if v > 2 ^ 31 - 1 then 2 ^ 31 - 1
  else if v < -(2 ^ 31) then -(2 ^ 31)
  else v

/-- Runtime error conditions reported by the value model. -/
inductive RunError
  | DivideByZero
deriving DecidableEq

/-- Modelled from the spec: integer division (C-style, truncated toward zero,
wrapping on overflow at width `w`) with division by zero reported as a
`DivideByZero` failure; the integer family's `Div` is not under `src/`. -/
def intDiv (w : Nat) (x y : Int) : Except RunError Int :=
  if y = 0 then .error .DivideByZero
  else .ok (toSigned w (toUnsigned w (Int.tdiv x y)))

/-- Modelled from the spec: integer modulo with the same `DivideByZero`
reporting as `intDiv`. -/
def intMod (w : Nat) (x y : Int) : Except RunError Int :=
  if y = 0 then .error .DivideByZero
  else .ok (toSigned w (toUnsigned w (Int.tmod x y)))

/-- An IEEE floating value at the granularity the spec's claims need: a finite
value (exact, as a rational), an infinity of either sign, or NaN. -/
inductive FVal
  | finite (q : ℚ)
  | posInf
  | negInf
  | nan
deriving DecidableEq

/-- Modelled from the spec: IEEE division on floating kinds — a nonzero finite
value divided by zero is the correspondingly signed infinity, zero over zero is
NaN, and NaN propagates; rounding of the exact finite quotient is left exact. -/
def fdiv : FVal → FVal → FVal
  | .nan, _ => .nan
  | .finite _, .nan => .nan
  | .finite a, .finite b =>
      if b = 0 then (if a = 0 then .nan else if 0 < a then .posInf else .negInf)
      else .finite (a / b)
  | .finite _, .posInf => .finite 0
  | .finite _, .negInf => .finite 0
  | .posInf, .finite b => if 0 ≤ b then .posInf else .negInf
  | .negInf, .finite b => if 0 ≤ b then .negInf else .posInf
  | .posInf, .nan => .nan
  | .negInf, .nan => .nan
  | .posInf, .posInf => .nan
  | .posInf, .negInf => .nan
  | .negInf, .posInf => .nan
  | .negInf, .negInf => .nan

/-- Modelled from the spec: `Div` on floating kinds follows IEEE semantics and
reports no error (its result type carries no failure for division by zero). -/
def floatDiv (a b : FVal) : Except RunError FVal :=
  .ok (fdiv a b)

/-- Truncation toward zero of a rational, the float-to-int coercion rule of
§4.2. -/
def ratTrunc (q : ℚ) : Int :=
  Int.tdiv q.num (q.den : Int)

/-- The stored value of a scalar variable of each modelled kind. -/
inductive VarVal
  | vBool (b : Bool)
  | vInt (v : Int)
  | vLong (v : Int)
  | vFloat (q : ℚ)
  | vDouble (q : ℚ)
deriving DecidableEq

/-- Modelled from the spec: the generic get-as-long accessor — the int and
long kinds return their stored value, booleans read as 0/1, floating kinds
truncate toward zero. -/
def getValLong : VarVal → Int
  | .vBool b => if b then 1 else 0
  | .vInt v => v
  | .vLong v => v
  | .vFloat q => ratTrunc q
  | .vDouble q => ratTrunc q

/-- Modelled from the spec: the generic get-as-int accessor — the int kind
returns its stored value, the long kind truncates to the low 32 bits
(`CBotVarLong.GetValInt`), booleans read as 0/1, floating kinds truncate
toward zero and wrap to 32 bits. -/
def getValInt : VarVal → Int
  | .vBool b => if b then 1 else 0
  | .vInt v => v
  | .vLong v => CBotVarLong.GetValInt v
  | .vFloat q => toSigned 32 (toUnsigned 32 (ratTrunc q))
  | .vDouble q => toSigned 32 (toUnsigned 32 (ratTrunc q))

/-- `CBotVarLong::SR` at the level of variable operands: the shift amount is
read from the right operand through the get-as-int accessor (source:
`right->GetValInt()`), the shifted value from the left operand through
`GetValLong`. -/
def SRvar (left right : VarVal) : Int :=
  CBotVarLong.SR_val (getValLong left) (getValInt right)

/-- The state effect of `CBotVarLong::SR` on a store of variables (indexed by
identity): the method body is a single `SetValLong` on the receiver computed
from reads of `left` and `right`, so exactly the receiver's cell is updated. -/
def SRexec (s : Nat → VarVal) (self left right : Nat) : Nat → VarVal :=
  fun i => if i = self then .vLong (SRvar (s left) (s right)) else s i

end CBot

namespace Gfx

/-- A three-component vector of float bit patterns, embedding `Math::Vector`
(and the componentwise-identical `glm::vec3`); fields are IEEE bit patterns so
equality is bit-for-bit. `Math::Vector()` default-constructs to zeros. -/
structure Vector where
  x : Nat := 0
  y : Nat := 0
  z : Nat := 0
deriving DecidableEq

/-- A two-component point of float bit patterns, embedding `Math::Point`
(and the componentwise-identical `glm::vec2`); `Math::Point()`
default-constructs to (0, 0). -/
structure Point where
  x : Nat := 0
  y : Nat := 0
deriving DecidableEq

/-- A four-component byte color, embedding `glm::u8vec4`. -/
structure Color4 where
  r : Nat := 255
  g : Nat := 255
  b : Nat := 255
  a : Nat := 255
deriving DecidableEq

/-- Embedding of `Gfx::Vertex` from `src/graphics/core/vertex.h`. -/
structure Vertex where
  coord : Vector := {}
  normal : Vector := {}
  texCoord : Point := {}
deriving DecidableEq

/-- Embedding of `Gfx::VertexTex2` from `src/graphics/core/vertex.h`. -/
structure VertexTex2 where
  coord : Vector := {}
  normal : Vector := {}
  texCoord : Point := {}
  texCoord2 : Point := {}
deriving DecidableEq

/-- Embedding of `VertexTex2::FromVertex`: assigns `coord`, `normal`,
`texCoord` from `v` and resets `texCoord2` to `Math::Point()`; `v` is taken by
const reference, so the update is a pure function of the receiver `t` and `v`. -/
def VertexTex2.FromVertex (t : VertexTex2) (v : Vertex) : VertexTex2 :=
  { t with
    coord := v.coord
    normal := v.normal
    texCoord := v.texCoord
    texCoord2 := {} }

/-- Embedding of `Gfx::Vertex3D` from `src/graphics/core/vertex.h`, with its
member default initializers (`normal` defaults to (0, 0, 1) — bit pattern of
1.0f written `oneF` below). -/
def oneF : Nat := 1065353216

/-- The `Vertex3D` struct itself. -/
structure Vertex3D where
  position : Vector := {}
  color : Color4 := {}
  uv : Point := {}
  uv2 : Point := {}
  normal : Vector := { x := 0, y := 0, z := oneF }
deriving DecidableEq

/-- Embedding of the converting constructor `Vertex3D(const VertexTex2&)`:
copies `coord`, `texCoord`, `texCoord2`, `normal`; `color` keeps its member
default. -/
def Vertex3D.ofVertexTex2 (v : VertexTex2) : Vertex3D :=
  { position := v.coord
    uv := v.texCoord
    uv2 := v.texCoord2
    normal := v.normal }

/-- Embedding of `Vertex3D::operator VertexTex2`:
`VertexTex2{ position, normal, uv, uv2 }`. -/
def Vertex3D.toVertexTex2 (d : Vertex3D) : VertexTex2 :=
  { coord := d.position
    normal := d.normal
    texCoord := d.uv
    texCoord2 := d.uv2 }

end Gfx

namespace CBot

theorem toUnsigned_lt (w : Nat) (x : Int) : toUnsigned w x < 2 ^ w := by
  unfold toUnsigned
  have hpos : (0 : Int) < (2 : Int) ^ w := by positivity
  have h := Int.emod_lt_of_pos x hpos
  have h2 : ((2 : Int) ^ w) = ((2 ^ w : Nat) : Int) := by push_cast; ring
  omega

theorem toUnsigned_toSigned (w : Nat) (u : Nat) (hu : u < 2 ^ w) :
    toUnsigned w (toSigned w u) = u := by
  unfold toUnsigned toSigned
  rw [Nat.mod_eq_of_lt hu]
  have hcast : ((2 : Int) ^ w) = ((2 ^ w : Nat) : Int) := by push_cast; ring
  by_cases hc : u < 2 ^ (w - 1)
  · simp only [hc, if_true]
    rw [Int.emod_eq_of_lt (by positivity) (by omega)]
    omega
  · simp only [hc, if_false]
    have h3 : (((u : Int) - 2 ^ w) % 2 ^ w) = (u : Int) % 2 ^ w := by
      simp [Int.sub_emod]
    rw [h3, Int.emod_eq_of_lt (by positivity) (by omega)]
    omega

theorem toSigned_range (w : Nat) (hw : 0 < w) (u : Nat) :
    -((2 : Int) ^ (w - 1)) ≤ toSigned w u ∧ toSigned w u < 2 ^ (w - 1) := by
  unfold toSigned
  have hm : u % 2 ^ w < 2 ^ w := Nat.mod_lt _ (by positivity)
  have hsplit : 2 ^ w = 2 * 2 ^ (w - 1) := by
    conv_lhs => rw [show w = (w - 1) + 1 by omega]
    ring
  have hpos : (0 : Int) < (2 : Int) ^ (w - 1) := by positivity
  have hcast : ((2 : Int) ^ w) = ((2 ^ w : Nat) : Int) := by push_cast; ring
  have hcast2 : ((2 : Int) ^ (w - 1)) = ((2 ^ (w - 1) : Nat) : Int) := by push_cast; ring
  by_cases hc : u % 2 ^ w < 2 ^ (w - 1)
  · simp only [hc, if_true]
    omega
  · simp only [hc, if_false]
    omega

theorem toSigned_of_lt_half (w : Nat) (u : Nat) (hu : u < 2 ^ (w - 1)) (hw : 0 < w) :
    toSigned w u = (u : Int) := by
  unfold toSigned
  have hsplit : 2 ^ w = 2 * 2 ^ (w - 1) := by
    conv_lhs => rw [show w = (w - 1) + 1 by omega]
    ring
  rw [Nat.mod_eq_of_lt (by omega)]
  simp [hu]

theorem natToBytes_length (w n : Nat) : (natToBytes w n).length = w := by
  induction w generalizing n with
  | zero => rfl
  | succ w ih => simp [natToBytes, ih]

theorem bytesToNat_natToBytes (w n : Nat) (h : n < 256 ^ w) :
    bytesToNat (natToBytes w n) = n := by
  induction w generalizing n with
  | zero => simp [natToBytes, bytesToNat]; omega
  | succ w ih =>
    have hdiv : n / 256 < 256 ^ w := by
      rw [Nat.div_lt_iff_lt_mul (by norm_num)]
      calc n < 256 ^ (w + 1) := h
      _ = 256 ^ w * 256 := by ring
    simp only [natToBytes, bytesToNat, ih _ hdiv]
    omega

theorem byteToTag_tagByte (t : TypeTag) : byteToTag (tagByte t) = some t := by
  cases t <;> rfl

end CBot

theorem toSigned_toUnsigned_modEq (w : Nat) (v : Int) :
    Int.ModEq ((2 : Int) ^ w) (CBot.toSigned w (CBot.toUnsigned w v)) v := by
  have hpos : (0 : Int) < (2 : Int) ^ w := by positivity
  have hcastu : ((CBot.toUnsigned w v : Nat) : Int) = v % (2 : Int) ^ w := by
    unfold CBot.toUnsigned
    exact Int.toNat_of_nonneg (Int.emod_nonneg v (ne_of_gt hpos))
  have hu : CBot.toUnsigned w v % 2 ^ w = CBot.toUnsigned w v :=
    Nat.mod_eq_of_lt (CBot.toUnsigned_lt w v)
  unfold Int.ModEq
  unfold CBot.toSigned
  rw [hu]
  by_cases hc : CBot.toUnsigned w v < 2 ^ (w - 1)
  · simp only [hc, if_true]
    rw [hcastu, Int.emod_emod_of_dvd _ dvd_rfl]
  · simp only [hc, if_false]
    rw [hcastu, Int.sub_emod, Int.emod_emod_of_dvd _ dvd_rfl, Int.emod_self, sub_zero,
      Int.emod_emod_of_dvd _ dvd_rfl]

/-- C1: for the long kind (W = 64), for every stored signed value `x` and shift
amount `0 ≤ n < 64`, `SR` produces the value whose bit pattern is the unsigned
bit pattern of `x` shifted right by `n` with zero fill (i.e. divided by `2 ^ n`),
stored back as a signed 64-bit two's-complement value (in range, nonnegative as
soon as `n ≥ 1`); in particular `SR (-1) 1 = 2 ^ 63 - 1`, the maximum positive
value, not `-1`. -/
theorem C1_SR_is_logical_shift (x n : Int)
    (hx1 : -((2 : Int) ^ 63) ≤ x) (hx2 : x < 2 ^ 63)
    (hn1 : 0 ≤ n) (hn2 : n < 64) :
    CBot.toUnsigned 64 (CBot.CBotVarLong.SR_val x n)
      = CBot.toUnsigned 64 x / 2 ^ n.toNat ∧
    -((2 : Int) ^ 63) ≤ CBot.CBotVarLong.SR_val x n ∧
    CBot.CBotVarLong.SR_val x n < 2 ^ 63 ∧
    (1 ≤ n → 0 ≤ CBot.CBotVarLong.SR_val x n) ∧
    CBot.CBotVarLong.SR_val (-1) 1 = 2 ^ 63 - 1 := by
  have hU : CBot.toUnsigned 64 x < 2 ^ 64 := CBot.toUnsigned_lt 64 x
  have hshift : CBot.toUnsigned 64 x >>> n.toNat = CBot.toUnsigned 64 x / 2 ^ n.toNat :=
    Nat.shiftRight_eq_div_pow _ _
  have hlt : CBot.toUnsigned 64 x / 2 ^ n.toNat < 2 ^ 64 :=
    lt_of_le_of_lt (Nat.div_le_self _ _) hU
  refine ⟨?_, ?_, ?_, ?_, ?_⟩
  · unfold CBot.CBotVarLong.SR_val
    rw [hshift, CBot.toUnsigned_toSigned 64 _ hlt]
  · exact (CBot.toSigned_range 64 (by norm_num) _).1
  · exact (CBot.toSigned_range 64 (by norm_num) _).2
  · intro hn
    unfold CBot.CBotVarLong.SR_val
    rw [hshift]
    have h2 : (2 : Nat) ≤ 2 ^ n.toNat := by
      calc (2 : Nat) = 2 ^ 1 := by norm_num
      _ ≤ 2 ^ n.toNat := Nat.pow_le_pow_right (by norm_num) (by omega)
    have hhalf : CBot.toUnsigned 64 x / 2 ^ n.toNat < 2 ^ 63 := by
      have := Nat.div_le_div_right (c := 2) (Nat.le_of_lt_succ (Nat.lt_succ_of_lt hU))
      have hd : CBot.toUnsigned 64 x / 2 ^ n.toNat ≤ CBot.toUnsigned 64 x / 2 :=
        Nat.div_le_div_left h2 (by norm_num)
      have : CBot.toUnsigned 64 x / 2 < 2 ^ 63 := by omega
      omega
    rw [CBot.toSigned_of_lt_half 64 _ (by simpa using hhalf) (by norm_num)]
    positivity
  · decide

/-- Concrete instantiation of `C1_SR_is_logical_shift` at `x = -1`, `n = 1`. -/
theorem C1_SR_witness :
    CBot.toUnsigned 64 (CBot.CBotVarLong.SR_val (-1) 1)
      = CBot.toUnsigned 64 (-1) / 2 ^ (1 : Int).toNat ∧
    -((2 : Int) ^ 63) ≤ CBot.CBotVarLong.SR_val (-1) 1 ∧
    CBot.CBotVarLong.SR_val (-1) 1 < 2 ^ 63 ∧
    ((1 : Int) ≤ 1 → 0 ≤ CBot.CBotVarLong.SR_val (-1) 1) ∧
    CBot.CBotVarLong.SR_val (-1) 1 = 2 ^ 63 - 1 :=
  C1_SR_is_logical_shift (-1) 1 (by norm_num) (by norm_num) (by norm_num) (by norm_num)

/-- C2: for every supported TypeTag and every payload bit pattern of that kind
(bit patterns cover boundary values and float NaN/Infinity, compared bit-for-bit),
restoring the bytes produced by saving the value yields the value back exactly:
`restoreState (saveState v) = .ok v`. -/
theorem C2_save_restore_roundtrip (v : CBot.SavedVal)
    (h : v.bits < 256 ^ CBot.payloadWidth v.tag) :
    CBot.restoreState (CBot.saveState v) = .ok v := by
  have hlen : (CBot.natToBytes (CBot.payloadWidth v.tag) v.bits).length
      = CBot.payloadWidth v.tag := CBot.natToBytes_length _ _
  simp only [CBot.saveState, CBot.restoreState, CBot.byteToTag_tagByte, hlen, le_refl,
    if_true, List.take_of_length_le (le_of_eq hlen), CBot.bytesToNat_natToBytes _ _ h]

/-- Concrete instantiation of `C2_save_restore_roundtrip` at a double-kind
value whose payload is the canonical quiet-NaN bit pattern 0x7FF8000000000000. -/
theorem C2_roundtrip_witness :
    CBot.restoreState (CBot.saveState ⟨CBot.TypeTag.tDouble, 9221120237041090560⟩)
      = .ok ⟨CBot.TypeTag.tDouble, 9221120237041090560⟩ :=
  C2_save_restore_roundtrip ⟨CBot.TypeTag.tDouble, 9221120237041090560⟩ (by norm_num [CBot.payloadWidth])

/-- C4: for every long-integer variable value, the emitted byte sequence is
exactly the TypeTag discriminant followed by an 8-byte payload field. -/
theorem C4_long_save_layout (v : Int) :
    ∃ payload : List Nat,
      CBot.saveLongVar v = CBot.tagByte .tLong :: payload ∧ payload.length = 8 :=
  ⟨CBot.CBotVarLong_Save1State v, rfl, CBot.natToBytes_length 8 _⟩

/-- C7: for every input byte stream whose discriminant byte matches no known
TypeTag, Restore returns `CorruptState` and constructs no variable (there is no
fallback to a default kind); the empty stream is likewise `CorruptState`. -/
theorem C7_unknown_discriminant (b : Nat) (rest : List Nat)
    (h : CBot.byteToTag b = none) :
    CBot.restoreState (b :: rest) = .error .CorruptState ∧
    CBot.restoreState [] = .error .CorruptState := by
  constructor
  · simp only [CBot.restoreState, h]
  · rfl

/-- Concrete instantiation of `C7_unknown_discriminant` at discriminant byte 255. -/
theorem C7_unknown_discriminant_witness :
    CBot.restoreState (255 :: [7, 7, 7, 7]) = .error .CorruptState ∧
    CBot.restoreState [] = .error .CorruptState :=
  C7_unknown_discriminant 255 [7, 7, 7, 7] (by norm_num [CBot.byteToTag])

/-- C3: for every integer width and every dividend, `Div(x, 0)` and `Mod(x, 0)`
are the reported `DivideByZero` failure (no silently produced zero), while on
floating kinds `Div(1.0, 0.0)` follows IEEE semantics, returning +Infinity with
no error. -/
theorem C3_divide_by_zero :
    (∀ (w : Nat) (x : Int),
      CBot.intDiv w x 0 = .error .DivideByZero ∧
      CBot.intMod w x 0 = .error .DivideByZero) ∧
    CBot.floatDiv (.finite 1) (.finite 0) = .ok .posInf := by
  refine ⟨fun w x => ⟨rfl, rfl⟩, ?_⟩
  norm_num [CBot.floatDiv, CBot.fdiv]

/-- C5: the shift amount of the long kind's `SR` is obtained from the right
operand through the get-as-int accessor, regardless of the right operand's own
kind or width: replacing any right operand by the 32-bit integer variable
holding its coerced value leaves the result unchanged, and a long right operand
acts only through its low 32 bits (adding `2 ^ 32` to it changes nothing). -/
theorem C5_shift_amount_via_getValInt (left : CBot.VarVal) (n : Int) :
    (∀ right : CBot.VarVal,
      CBot.SRvar left right = CBot.SRvar left (.vInt (CBot.getValInt right))) ∧
    CBot.SRvar left (.vLong (n + 2 ^ 32)) = CBot.SRvar left (.vLong n) := by
  constructor
  · intro right
    rfl
  · have h : CBot.toUnsigned 32 (n + 2 ^ 32) = CBot.toUnsigned 32 n := by
      unfold CBot.toUnsigned
      congr 1
      simp [Int.add_emod]
    show CBot.CBotVarLong.SR_val (CBot.getValLong left)
        (CBot.CBotVarLong.GetValInt (n + 2 ^ 32))
      = CBot.CBotVarLong.SR_val (CBot.getValLong left) (CBot.CBotVarLong.GetValInt n)
    unfold CBot.CBotVarLong.GetValInt
    rw [h]

/-- C6: `SR` on the long kind writes only the receiver's own storage — after
`self->SR(left, right)` on a store of variables, the cells of `left` and
`right` (when they are not the receiver itself) hold their previous values;
the right operand is coerced at read time, never mutated. -/
theorem C6_sr_writes_only_receiver (s : Nat → CBot.VarVal) (self left right : Nat)
    (hl : left ≠ self) (hr : right ≠ self) :
    CBot.SRexec s self left right left = s left ∧
    CBot.SRexec s self left right right = s right := by
  unfold CBot.SRexec
  simp [hl, hr]

/-- Concrete instantiation of `C6_sr_writes_only_receiver` on the store mapping
index `i` to the long variable of value `i`, with receiver 0, left 1, right 2. -/
theorem C6_sr_writes_only_receiver_witness :
    CBot.SRexec (fun i => CBot.VarVal.vLong (i : Int)) 0 1 2 1
      = CBot.VarVal.vLong ((1 : Nat) : Int) ∧
    CBot.SRexec (fun i => CBot.VarVal.vLong (i : Int)) 0 1 2 2
      = CBot.VarVal.vLong ((2 : Nat) : Int) :=
  C6_sr_writes_only_receiver (fun i => CBot.VarVal.vLong (i : Int)) 0 1 2
    (by decide) (by decide)

/-- C8: for every stored long value outside the 32-bit signed range,
`GetValInt` returns the low 32 bits under two's-complement truncation — the
result is congruent to the stored value modulo `2 ^ 32` and lies in the 32-bit
signed range — and it is not the saturating conversion (at `2 ^ 31` the two
differ). -/
theorem C8_long_to_int_truncates (v : Int)
    (h1 : -((2 : Int) ^ 63) ≤ v) (h2 : v < 2 ^ 63)
    (h3 : v < -((2 : Int) ^ 31) ∨ (2 : Int) ^ 31 ≤ v) :
    Int.ModEq ((2 : Int) ^ 32) (CBot.CBotVarLong.GetValInt v) v ∧
    -((2 : Int) ^ 31) ≤ CBot.CBotVarLong.GetValInt v ∧
    CBot.CBotVarLong.GetValInt v < 2 ^ 31 ∧
    CBot.CBotVarLong.GetValInt (2 ^ 31) ≠ CBot.saturate32 (2 ^ 31) := by
  refine ⟨toSigned_toUnsigned_modEq 32 v, ?_, ?_, ?_⟩
  · exact (CBot.toSigned_range 32 (by norm_num) _).1
  · exact (CBot.toSigned_range 32 (by norm_num) _).2
  · decide

/-- Concrete instantiation of `C8_long_to_int_truncates` at `v = 2 ^ 31`,
the smallest long value above the 32-bit signed range. -/
theorem C8_long_to_int_truncates_witness :
    Int.ModEq ((2 : Int) ^ 32) (CBot.CBotVarLong.GetValInt (2 ^ 31)) (2 ^ 31) ∧
    -((2 : Int) ^ 31) ≤ CBot.CBotVarLong.GetValInt (2 ^ 31) ∧
    CBot.CBotVarLong.GetValInt ((2 : Int) ^ 31) < 2 ^ 31 ∧
    CBot.CBotVarLong.GetValInt (2 ^ 31) ≠ CBot.saturate32 (2 ^ 31) :=
  C8_long_to_int_truncates (2 ^ 31) (by norm_num) (by norm_num) (Or.inr (by norm_num))

/-- C9: after `t.FromVertex(v)` the receiver's `coord`, `normal`, `texCoord`
equal `v`'s and `texCoord2` is `(0, 0)`, for every prior state of `t`; `v` is
read through a const reference, so in this pure embedding the update is a
function of `t` and `v` that leaves `v` untouched. -/
theorem C9_fromVertex_fields (t : Gfx.VertexTex2) (v : Gfx.Vertex) :
    (t.FromVertex v).coord = v.coord ∧
    (t.FromVertex v).normal = v.normal ∧
    (t.FromVertex v).texCoord = v.texCoord ∧
    (t.FromVertex v).texCoord2 = Gfx.Point.mk 0 0 :=
  ⟨rfl, rfl, rfl, rfl⟩

/-- C10: converting a `VertexTex2` to a `Vertex3D` and back yields a vertex
whose `coord`, `normal`, `texCoord`, `texCoord2` all equal the original's. -/
theorem C10_vertexTex2_roundtrip (v : Gfx.VertexTex2) :
    (Gfx.Vertex3D.ofVertexTex2 v).toVertexTex2.coord = v.coord ∧
    (Gfx.Vertex3D.ofVertexTex2 v).toVertexTex2.normal = v.normal ∧
    (Gfx.Vertex3D.ofVertexTex2 v).toVertexTex2.texCoord = v.texCoord ∧
    (Gfx.Vertex3D.ofVertexTex2 v).toVertexTex2.texCoord2 = v.texCoord2 :=
  ⟨rfl, rfl, rfl, rfl⟩
